import Mathlib

/-!
Verification development for the DeepGen research pipeline
(`deepgen/services/research_pipeline/`): evidence retrieval, claim
extraction, contradiction analysis, proposal synthesis, the job
orchestrator, and proposal decisions.

Modelling conventions:
* Python floats are modelled as exact rationals (`ℚ`); `round(x, n)`
  (banker's rounding) is modelled by `pyRound`.
* Python `str.strip` / `str.lower` / `str.split()` are modelled over the
  ASCII whitespace characters recognised by `Char.isWhitespace`.
* Python sets are modelled as insertion-ordered duplicate-free lists
  (only membership and cardinality of these sets are ever observed).
* `sha1` in `normalize_title_hash` is modelled as an injective encoding,
  i.e. the normalised title string itself.
* Database entities are modelled as plain structures; JSON-encoded list
  columns are modelled by the decoded values they round-trip through.
-/

namespace DeepGen

/-- Python truthiness of an optional string: `None` and `""` are falsy. -/
def optStrTruthy : Option String → Bool
  | none => false
  | some s => s ≠ ""

/-- Python `s.split()` on a character list: split on whitespace runs,
dropping empty pieces (accumulator-based, one left-to-right pass). -/
def pyWordsChars (cs : List Char) : List (List Char) :=
  let r := cs.foldl
    (fun (acc : List (List Char) × List Char) c =>
      if c.isWhitespace then
        (if acc.2 = [] then acc.1 else acc.1 ++ [acc.2], [])
      else (acc.1, acc.2 ++ [c]))
    ([], [])
  if r.2 = [] then r.1 else r.1 ++ [r.2]

/-- `" ".join(words)` on character lists. -/
def joinWords : List (List Char) → List Char
  | [] => []
  | w :: rest => w ++ rest.foldl (fun acc v => acc ++ ' ' :: v) []

/-- Python `s.strip()`: drop leading and trailing whitespace. -/
def pyStrip (s : String) : String :=
  String.mk (((s.data.dropWhile Char.isWhitespace).reverse.dropWhile Char.isWhitespace).reverse)

/-- `_norm_name` (scoring.py / contradictions.py):
`" ".join((value or "").lower().split())`. -/
def normName (value : Option String) : String :=
  String.mk (joinWords (pyWordsChars ((value.getD "").data.map Char.toLower)))

/-- Round half to even on integers represented inside `ℚ`
(Python `round` semantics on exact values). -/
def halfEvenRound (q : ℚ) : ℤ :=
  if 2 * q < 2 * (⌊q⌋ : ℚ) + 1 then ⌊q⌋
  else if 2 * (⌊q⌋ : ℚ) + 1 < 2 * q then ⌊q⌋ + 1
  else if ⌊q⌋ % 2 = 0 then ⌊q⌋ else ⌊q⌋ + 1

/-- Python `round(q, ndigits)` with banker's rounding, on exact rationals. -/
def pyRound (ndigits : ℕ) (q : ℚ) : ℚ :=
  (halfEvenRound (q * (10 : ℚ) ^ ndigits) : ℚ) / (10 : ℚ) ^ ndigits

/-- Add an element to an insertion-ordered set modelled as a list
(Python `set.add`). -/
def insertUnique (ids : List Int) (eid : Int) : List Int :=
  if eid ∈ ids then ids else ids ++ [eid]

/-- Same, for string sets. -/
def insertUniqueStr (xs : List String) (x : String) : List String :=
  if x ∈ xs then xs else xs ++ [x]

/-- Insert into a sorted list (ascending under `le`). -/
def insertLe (le : α → α → Bool) (x : α) : List α → List α
  | [] => [x]
  | y :: ys => if le x y then x :: y :: ys else y :: insertLe le x ys

/-- Insertion sort, ascending under `le` (models Python `sorted`). -/
def sortByLe (le : α → α → Bool) : List α → List α
  | [] => []
  | x :: xs => insertLe le x (sortByLe le xs)

/-- Lexicographic order on character lists (Python string comparison by
code point). -/
def charListLe : List Char → List Char → Bool
  | [], _ => true
  | _ :: _, [] => false
  | x :: xs, y :: ys => if x < y then true else if y < x then false else charListLe xs ys

/-- Python `sorted` on integers (ascending). -/
def sortInts (l : List Int) : List Int :=
  sortByLe (fun a b => decide (a ≤ b)) l

/-- Python `sorted(set(l))` on strings: distinct elements in ascending
lexicographic order. -/
def sortedDedup (l : List String) : List String :=
  sortByLe (fun a b => charListLe a.data b.data) l.dedup

/-- The two relationships admitted by `ClaimItem.relationship`
(pydantic `Literal["father", "mother"]`). -/
inductive Rel where
  | father
  | mother
deriving DecidableEq, Repr

/-- `ClaimItem` (extraction.py). `confidence` is a Python float, modelled
as `ℚ`; `candidate_name` is nullable. -/
structure ClaimItem where
  relationship : Rel
  candidate_name : Option String := none
  confidence : ℚ := 0
  rationale : String := ""
  evidence_ids : List Int := []
deriving DecidableEq, Repr

/-- `ContradictionResult` (contradictions.py): the `by_relationship`
dict always has exactly the keys "father" and "mother". -/
structure ContradictionResult where
  father_flags : List String
  mother_flags : List String
  global_flags : List String
deriving DecidableEq, Repr

/-- `contradictions.by_relationship.get(rel, [])` for `rel` a valid key. -/
def ContradictionResult.relFlags (c : ContradictionResult) : Rel → List String
  | Rel.father => c.father_flags
  | Rel.mother => c.mother_flags

/-- The `score_components` dict built by `_compute_candidate_score`
(a fixed-key dict, modelled as a structure). -/
structure ScoreComponents where
  avg_confidence : ℚ
  support_count : ℕ
  source_diversity : ℚ
  evidence_specificity : ℚ
  contradiction_penalty : ℚ
  final_score : ℚ
deriving DecidableEq, Repr

/-- `ProposalDraft` (scoring.py). -/
structure ProposalDraft where
  relationship : Rel
  candidate_name : Option String
  confidence : ℚ
  status : String
  notes : String
  evidence_ids : List Int
  contradiction_flags : List String
  score_components : ScoreComponents
deriving DecidableEq, Repr

/-- `_insufficient` (scoring.py). -/
def insufficientDraft (relationship : Rel) (reason : String) : ProposalDraft :=
  { relationship := relationship
    candidate_name := none
    confidence := 0
    status := "pending_review"
    notes := reason
    evidence_ids := []
    contradiction_flags := []
    score_components :=
      { avg_confidence := 0
        support_count := 0
        source_diversity := 0
        evidence_specificity := 0
        contradiction_penalty := 0
        final_score := 0 } }

/-- Accumulator of the claim loop in `_compute_candidate_score`:
the `evidence_ids` set, the `confidences` list and the
`claims_with_evidence` counter. -/
structure ScoreAcc where
  evidence_ids : List Int
  confidences : List ℚ
  claims_with_evidence : ℕ
deriving DecidableEq, Repr

/-- One iteration of the claim loop in `_compute_candidate_score`. -/
def scoreStep (acc : ScoreAcc) (claim : ClaimItem) : ScoreAcc :=
  { confidences := acc.confidences ++ [claim.confidence]
    claims_with_evidence :=
      acc.claims_with_evidence + (if claim.evidence_ids ≠ [] then 1 else 0)
    evidence_ids := claim.evidence_ids.foldl insertUnique acc.evidence_ids }

/-- The claim loop of `_compute_candidate_score`. -/
def scoreLoop (candidate_claims : List ClaimItem) : ScoreAcc :=
  candidate_claims.foldl scoreStep ⟨[], [], 0⟩

/-- `len({evidence_sources.get(eid, "") for eid in evidence_ids
if evidence_sources.get(eid, "")})`: count of distinct non-empty sources. -/
def distinctSources (evidence_sources : Int → Option String) (ids : List Int) : ℕ :=
  (((ids.map (fun eid => (evidence_sources eid).getD "")).filter (fun s => s ≠ "")).dedup).length

/-- `_compute_candidate_score` (scoring.py): returns the unclamped-name
triple `(final_score, components, sorted evidence ids)`. The
`evidence_sources` dict is modelled as a partial map `Int → Option String`
(`dict.get eid, ""` is `(evidence_sources eid).getD ""`). -/
def computeCandidateScore (candidate_claims : List ClaimItem)
    (evidence_sources : Int → Option String)
    (contradiction_flags : List String) (global_flags : List String) :
    ℚ × ScoreComponents × List Int :=
  let acc := scoreLoop candidate_claims
  let avg_confidence : ℚ :=
    if acc.confidences = [] then 0 else acc.confidences.sum / (acc.confidences.length : ℚ)
  let support_count : ℕ := candidate_claims.length
  let source_diversity_raw : ℕ := distinctSources evidence_sources acc.evidence_ids
  let source_diversity : ℚ := min 1 ((source_diversity_raw : ℚ) / 3)
  let evidence_specificity : ℚ :=
    if support_count = 0 then 0 else (acc.claims_with_evidence : ℚ) / (support_count : ℚ)
  let contradiction_penalty : ℚ :=
    (if contradiction_flags ≠ [] then 0.25 else 0)
      + (if "same_parent_name_for_both_relationships" ∈ global_flags then 0.2 else 0)
  let final_score_raw : ℚ :=
    0.45 * avg_confidence + 0.25 * min 1 ((support_count : ℚ) / 3)
      + 0.20 * source_diversity + 0.10 * evidence_specificity
      - contradiction_penalty
  let final_score : ℚ := max 0 (min 1 final_score_raw)
  (final_score,
    { avg_confidence := pyRound 3 avg_confidence
      support_count := support_count
      source_diversity := pyRound 3 source_diversity
      evidence_specificity := pyRound 3 evidence_specificity
      contradiction_penalty := pyRound 3 contradiction_penalty
      final_score := pyRound 3 final_score },
    sortInts acc.evidence_ids)

/-- One entry of the per-relationship grouping dict `by_rel_name[rel]`:
normalised candidate name ↦ claims, in first-seen key order. -/
def addToGroups (groups : List (String × List ClaimItem)) (key : String)
    (c : ClaimItem) : List (String × List ClaimItem) :=
  match groups with
  | [] => [(key, [c])]
  | (k, cs) :: rest =>
    if k = key then (k, cs ++ [c]) :: rest else (k, cs) :: addToGroups rest key c

/-- The grouping loop of `synthesize_proposals`, restricted to one
relationship: Python's `defaultdict(list)` keyed by normalised name,
fed with the claims of that relationship that have a truthy
`candidate_name`, in claim order. -/
def buildGroups (claims : List ClaimItem) (rel : Rel) : List (String × List ClaimItem) :=
  claims.foldl
    (fun gs c =>
      if c.relationship = rel ∧ optStrTruthy c.candidate_name then
        addToGroups gs (normName c.candidate_name) c
      else gs)
    []

/-- The running best candidate of the selection loop in
`synthesize_proposals`. -/
structure BestCandidate where
  name : String
  score : ℚ
  components : ScoreComponents
  evidence_ids : List Int
deriving DecidableEq, Repr

/-- The selection loop of `synthesize_proposals`: iterate the grouping
dict in insertion order, keeping the strictly best score (first at the
maximum wins). The initial components value models the initial empty
dict, which is never returned when the grouping is non-empty. -/
def selectBest (groups : List (String × List ClaimItem))
    (evidence_sources : Int → Option String)
    (rel_flags : List String) (global_flags : List String) : BestCandidate :=
  groups.foldl
    (fun best entry =>
      let r := computeCandidateScore entry.2 evidence_sources rel_flags global_flags
      if r.1 > best.score then
        { name := entry.1, score := r.1, components := r.2.1, evidence_ids := r.2.2 }
      else best)
    { name := ""
      score := -1
      components :=
        { avg_confidence := 0, support_count := 0, source_diversity := 0
          evidence_specificity := 0, contradiction_penalty := 0, final_score := 0 }
      evidence_ids := [] }

/-- The display-name loop of `synthesize_proposals`: first claim of the
winning group with a truthy `candidate_name`, stripped. -/
def displayName (groups : List (String × List ClaimItem)) (best_name : String) :
    Option String :=
  match ((groups.lookup best_name).getD []).find? (fun c => optStrTruthy c.candidate_name) with
  | some c => some (pyStrip (c.candidate_name.getD ""))
  | none => none

/-- The body of the per-relationship loop of `synthesize_proposals`
(scoring.py lines 114-178): produces the single draft appended for
`rel`. -/
def proposalForRel (claims : List ClaimItem) (evidence_sources : Int → Option String)
    (contradictions : ContradictionResult) (minimum_score : ℚ) (rel : Rel) :
    ProposalDraft :=
  let grouped := buildGroups claims rel
  if grouped = [] then
    insufficientDraft rel "Insufficient evidence for a candidate parent."
  else
    let best := selectBest grouped evidence_sources (contradictions.relFlags rel)
      contradictions.global_flags
    let display_name := displayName grouped best.name
    let flags := sortedDedup (contradictions.relFlags rel ++ contradictions.global_flags)
    if ¬ optStrTruthy display_name ∨ best.evidence_ids = [] then
      insufficientDraft rel "Insufficient evidence: no valid citations for proposal."
    else if best.score < minimum_score then
      { relationship := rel
        candidate_name := none
        confidence := pyRound 3 best.score
        status := "pending_review"
        notes := "Insufficient evidence quality threshold."
        evidence_ids := best.evidence_ids
        contradiction_flags := flags
        score_components := best.components }
    else
      { relationship := rel
        candidate_name := display_name
        confidence := pyRound 3 best.score
        status := "pending_review"
        notes := "Candidate synthesized from evidence and claim agreement."
        evidence_ids := best.evidence_ids
        contradiction_flags := flags
        score_components := best.components }

/-- `synthesize_proposals` (scoring.py): one draft per relationship, in
the loop order `("father", "mother")`. -/
def synthesizeProposals (claims : List ClaimItem)
    (evidence_sources : Int → Option String)
    (contradictions : ContradictionResult) (minimum_score : ℚ := 0.35) :
    List ProposalDraft :=
  [proposalForRel claims evidence_sources contradictions minimum_score Rel.father,
   proposalForRel claims evidence_sources contradictions minimum_score Rel.mother]

/-- Numeric value of four digit characters. -/
def fourDigitsToNat (a b c d : Char) : ℕ :=
  ((a.toNat - 48) * 1000) + ((b.toNat - 48) * 100) + ((c.toNat - 48) * 10) + (d.toNat - 48)

/-- `re.findall(r"(\d{4})", text)`: left-to-right, non-overlapping scan
for runs of exactly four digits (each match consumes its four
characters). -/
def findFourDigitMatches : List Char → List ℕ
  | a :: b :: c :: d :: rest =>
    if a.isDigit ∧ b.isDigit ∧ c.isDigit ∧ d.isDigit then
      fourDigitsToNat a b c d :: findFourDigitMatches rest
    else
      findFourDigitMatches (b :: c :: d :: rest)
  | _ => []

/-- `_extract_year` (contradictions.py): take the last 4-digit match and
keep it only when it lies in 1500..2100. -/
def extractYear (text : String) : Option ℕ :=
  match (findFourDigitMatches text.data).getLast? with
  | none => none
  | some year => if 1500 ≤ year ∧ year ≤ 2100 then some year else none

/-- The `PersonLike` protocol of contradictions.py. -/
structure PersonLike where
  name : String
  birth_year : Option Int
deriving DecidableEq, Repr

/-- Python truthiness of the optional `birth_year`: `None` and `0` are
falsy. -/
def birthYearTruthy : Option Int → Bool
  | none => false
  | some y => y ≠ 0

/-- Accumulator of the claim loop in `evaluate_contradictions`:
per-relationship flag lists, the high-confidence name sets, and the
top-confidence name/confidence per relationship. -/
structure CState where
  father_flags : List String
  mother_flags : List String
  hc_father : List String
  hc_mother : List String
  top_name_father : Option String
  top_name_mother : Option String
  top_conf_father : ℚ
  top_conf_mother : ℚ
deriving DecidableEq, Repr

/-- `by_relationship[rel].append(flag)`. -/
def CState.appendFlag (st : CState) (rel : Rel) (flag : String) : CState :=
  match rel with
  | Rel.father => { st with father_flags := st.father_flags ++ [flag] }
  | Rel.mother => { st with mother_flags := st.mother_flags ++ [flag] }

/-- `high_conf[rel].add(name_norm)`. -/
def CState.addHighConf (st : CState) (rel : Rel) (name_norm : String) : CState :=
  match rel with
  | Rel.father => { st with hc_father := insertUniqueStr st.hc_father name_norm }
  | Rel.mother => { st with hc_mother := insertUniqueStr st.hc_mother name_norm }

/-- `top_conf_by_rel[rel]`. -/
def CState.topConf (st : CState) : Rel → ℚ
  | Rel.father => st.top_conf_father
  | Rel.mother => st.top_conf_mother

/-- Update of `top_conf_by_rel[rel]` and `top_name_by_rel[rel]`. -/
def CState.setTop (st : CState) (rel : Rel) (name_norm : String) (conf : ℚ) : CState :=
  match rel with
  | Rel.father => { st with top_name_father := some name_norm, top_conf_father := conf }
  | Rel.mother => { st with top_name_mother := some name_norm, top_conf_mother := conf }

/-- Flag list of `st` for a relationship. -/
def CState.relFlags (st : CState) : Rel → List String
  | Rel.father => st.father_flags
  | Rel.mother => st.mother_flags

/-- First part of one iteration of the claim loop of
`evaluate_contradictions` (contradictions.py lines 45-57), in source
order: self-parent check, high-confidence set, top-confidence update. -/
def cStepPre (person_name_norm : String) (st : CState) (claim : ClaimItem) : CState :=
  let name_norm := normName claim.candidate_name
  let st :=
    if name_norm ≠ "" ∧ name_norm = person_name_norm then
      st.appendFlag claim.relationship "self_parent_conflict"
    else st
  let st :=
    if optStrTruthy claim.candidate_name ∧ (0.65 : ℚ) ≤ claim.confidence then
      st.addHighConf claim.relationship name_norm
    else st
  if optStrTruthy claim.candidate_name ∧ st.topConf claim.relationship < claim.confidence then
    st.setTop claim.relationship name_norm claim.confidence
  else st

/-- One iteration of the claim loop of `evaluate_contradictions`
(contradictions.py lines 45-61): `cStepPre` followed by the chronology
check. -/
def cStep (person_name_norm : String) (birth_year : Option Int)
    (st : CState) (claim : ClaimItem) : CState :=
  let st := cStepPre person_name_norm st claim
  match extractYear claim.rationale with
  | some rationale_year =>
    if birthYearTruthy birth_year ∧ (birth_year.getD 0) - 12 < (rationale_year : Int) then
      st.appendFlag claim.relationship "chronology_conflict"
    else st
  | none => st

/-- `evaluate_contradictions` (contradictions.py). -/
def evaluateContradictions (person : PersonLike) (claims : List ClaimItem) :
    ContradictionResult :=
  let person_name_norm := normName (some person.name)
  let st := claims.foldl (cStep person_name_norm person.birth_year)
    ⟨[], [], [], [], none, none, -1, -1⟩
  let father_flags :=
    if 1 < (st.hc_father.filter (fun s => s ≠ "")).length then
      st.father_flags ++ ["multiple_high_confidence_candidates"]
    else st.father_flags
  let mother_flags :=
    if 1 < (st.hc_mother.filter (fun s => s ≠ "")).length then
      st.mother_flags ++ ["multiple_high_confidence_candidates"]
    else st.mother_flags
  let global_flags :=
    if optStrTruthy st.top_name_father ∧ optStrTruthy st.top_name_mother ∧
        st.top_name_father = st.top_name_mother then
      ["same_parent_name_for_both_relationships"]
    else []
  { father_flags := sortedDedup father_flags
    mother_flags := sortedDedup mother_flags
    global_flags := sortedDedup global_flags }

/-- `ExtractionOutcome` (extraction.py). -/
structure ExtractionOutcome where
  claims : List ClaimItem
  parse_valid : Bool
  raw_text : String
  retries_used : ℕ
  repairs_used : ℕ
  errors : List String
deriving DecidableEq, Repr

/-- `extract_claims_for_person` (extraction.py lines 153-225), paired
with the number of LLM calls it performs.

The LLM collaborator (`llm_client.generate`) is modelled as a map from
call index to either a raised exception message (`Except.error`) or the
returned text; `none` models a missing client.  `parse` models
`_parse_claims_payload` applied with the valid evidence-id set already
fixed: it either raises (`Except.error` with the exception text) or
returns the cleaned claims.  Prompt construction
(`_build_prompt` / `_build_repair_prompt`) affects neither the call
count nor any returned field and is not modelled. -/
def extractClaimsForPerson (llm : Option (ℕ → Except String String))
    (parse : String → Except String (List ClaimItem)) : ExtractionOutcome × ℕ :=
  match llm with
  | none =>
    ({ claims := [], parse_valid := true, raw_text := "", retries_used := 0
       repairs_used := 0, errors := ["LLM backend disabled or missing credentials"] }, 0)
  | some generate =>
    match generate 0 with
    | Except.error exc =>
      ({ claims := [], parse_valid := false, raw_text := "", retries_used := 0
         repairs_used := 0, errors := ["LLM request failed: " ++ exc] }, 1)
    | Except.ok raw =>
      match parse raw with
      | Except.ok claims =>
        ({ claims := claims, parse_valid := true, raw_text := raw, retries_used := 0
           repairs_used := 0, errors := [] }, 1)
      | Except.error exc1 =>
        match generate 1 with
        | Except.error exc2 =>
          ({ claims := [], parse_valid := false, raw_text := raw, retries_used := 1
             repairs_used := 1
             errors := ["Primary parse failed: " ++ exc1, "Repair parse failed: " ++ exc2] }, 2)
        | Except.ok repaired_raw =>
          match parse repaired_raw with
          | Except.ok claims =>
            ({ claims := claims, parse_valid := true, raw_text := repaired_raw
               retries_used := 1, repairs_used := 1
               errors := ["Primary parse failed: " ++ exc1] }, 2)
          | Except.error exc2 =>
            ({ claims := [], parse_valid := false, raw_text := raw, retries_used := 1
               repairs_used := 1
               errors := ["Primary parse failed: " ++ exc1, "Repair parse failed: " ++ exc2] }, 2)

/-- `SourceResult` (source_types.py). -/
structure SourceResult where
  source : String
  title : String
  url : String
  note : String
deriving DecidableEq, Repr

/-- `RetrievalEvidence` (retrieval.py). -/
structure RetrievalEvidence where
  source : String
  title : String
  url : String
  note : String
  normalized_url : String
  normalized_title_hash : String
deriving DecidableEq, Repr

/-- `ConnectorFetchResult` (retrieval.py): the joined result of one
connector's `_search_with_retry` future. -/
structure ConnectorFetchResult where
  items : List SourceResult
  retries_used : ℕ
  errors : List String
deriving DecidableEq, Repr

/-- `RetrievalResult` (retrieval.py). -/
structure RetrievalResult where
  evidence : List RetrievalEvidence
  retries_used : ℕ
  errors : List String
deriving DecidableEq, Repr

/-- Valid URL scheme: a letter followed by letters, digits, `+`, `-`,
`.` (as checked by `urllib.parse.urlsplit`). -/
def validScheme (cs : List Char) : Bool :=
  match cs with
  | [] => false
  | c :: rest => c.isAlpha ∧ rest.all (fun d => d.isAlphanum ∨ d = '+' ∨ d = '-' ∨ d = '.')

/-- `urllib.parse.urlsplit` (generic-syntax model, no query/fragment kept
beyond the split): returns `(scheme, netloc, path)`; the query and
fragment components are parsed and discarded, as `normalize_url` drops
them. -/
def urlsplitSNP (cs : List Char) : List Char × List Char × List Char :=
  let beforeFragment := cs.takeWhile (fun c => c ≠ '#')
  let (scheme, rest) :=
    let pre := beforeFragment.takeWhile (fun c => c ≠ ':')
    let post := beforeFragment.dropWhile (fun c => c ≠ ':')
    match post with
    | ':' :: after => if validScheme pre then (pre, after) else ([], beforeFragment)
    | _ => ([], beforeFragment)
  let (netloc, rest2) :=
    match rest with
    | '/' :: '/' :: tail =>
      (tail.takeWhile (fun c => c ≠ '/' ∧ c ≠ '?'),
       tail.dropWhile (fun c => c ≠ '/' ∧ c ≠ '?'))
    | _ => ([], rest)
  let path := rest2.takeWhile (fun c => c ≠ '?')
  (scheme, netloc, path)

/-- `urllib.parse.urlunsplit` with empty query and fragment. -/
def urlunsplitSNP (scheme netloc path : List Char) : List Char :=
  let url :=
    if netloc ≠ [] ∨ path.take 2 = ['/', '/'] then
      let p := if path ≠ [] ∧ path.take 1 ≠ ['/'] then '/' :: path else path
      '/' :: '/' :: (netloc ++ p)
    else path
  if scheme ≠ [] then scheme ++ ':' :: url else url

/-- `normalize_url` (retrieval.py): lower-case scheme and netloc, strip
trailing slashes from the path, drop query and fragment.  The
`except ValueError` fallback of the source (unparsable URLs) has no
counterpart because the model parser is total. -/
def normalizeUrl (url : String) : String :=
  let raw := pyStrip url
  if raw = "" then ""
  else
    let (scheme, netloc, path) := urlsplitSNP raw.data
    let scheme := scheme.map Char.toLower
    let netloc := netloc.map Char.toLower
    let path := (path.reverse.dropWhile (fun c => c = '/')).reverse
    String.mk (urlunsplitSNP scheme netloc path)

/-- `normalize_title_hash` (retrieval.py): collapse whitespace, lower
case, hash.  The `sha1` digest is modelled as an injective encoding of
its input, i.e. the compacted string itself. -/
def normalizeTitleHash (title : String) : String :=
  String.mk (joinWords (pyWordsChars (title.data.map Char.toLower)))

/-- Dedup key of a retrieval item. -/
def dedupKey (item : SourceResult) : String × String :=
  (normalizeUrl item.url, normalizeTitleHash item.title)

/-- The `RetrievalEvidence` row built for a kept item. -/
def mkEvidence (item : SourceResult) : RetrievalEvidence :=
  { source := item.source, title := item.title, url := item.url, note := item.note
    normalized_url := normalizeUrl item.url
    normalized_title_hash := normalizeTitleHash item.title }

/-- The dedup loop of `retrieve_evidence` (retrieval.py lines 109-129):
first-seen wins, with the `break` once `max_total` items have been
collected.  The `seen` set is modelled as a list used only through
membership. -/
def dedupCap (max_total : ℕ) (seen : List (String × String))
    (deduped : List RetrievalEvidence) : List SourceResult → List RetrievalEvidence
  | [] => deduped
  | item :: rest =>
    if dedupKey item ∈ seen then dedupCap max_total seen deduped rest
    else
      let deduped' := deduped ++ [mkEvidence item]
      if max_total ≤ deduped'.length then deduped'
      else dedupCap max_total (dedupKey item :: seen) deduped' rest

/-- `retrieve_evidence` (retrieval.py lines 80-131).  The concurrent
fan-out is modelled by its observable join: one `ConnectorFetchResult`
per connector, consumed in connector submission order (the source
iterates `futures` in submission order).  For an empty connector list
the early return coincides with the general computation on `[]`. -/
def retrieveEvidence (results : List ConnectorFetchResult)
    (max_results_per_connector : ℕ := 6) (max_total : ℕ := 24) : RetrievalResult :=
  let retries_used := (results.map (fun r => r.retries_used)).sum
  let errors := (results.map (fun r => r.errors)).flatten
  let merged := (results.map (fun r => r.items.take max_results_per_connector)).flatten
  { evidence := dedupCap max_total [] [] merged
    retries_used := retries_used
    errors := errors }

/-- Update of the `stage_durations_ms` map:
`durations[stage] = int(durations.get(stage, 0) + elapsed_ms)`
(`_record_stage_duration`, with the elapsed time already in integral
milliseconds). -/
def recordDuration (durations : List (String × ℕ)) (stage : String) (ms : ℕ) :
    List (String × ℕ) :=
  match durations with
  | [] => [(stage, ms)]
  | (k, v) :: rest =>
    if k = stage then (k, v + ms) :: rest else (k, v) :: recordDuration rest stage ms

/-- The stage-statistics blob of a job (`stage_stats_json`, decoded).
The model keeps it structured; `_load_stage_stats`/`_save_stage_stats`
round-trip it through JSON without changing these fields. -/
structure StageStats where
  person_xrefs : List String
  errors : List String
  stage_durations_ms : List (String × ℕ)
deriving DecidableEq, Repr

/-- `ResearchJob` (models.py), restricted to the fields read or written
by `run_research_job`.  Timestamps are abstract clock ticks; the
ORM-maintained `updated_at` column is not part of the model. -/
structure ResearchJob where
  status : String
  stage : String
  llm_backend : String
  llm_model : String
  target_count : ℕ
  completed_count : ℕ
  error_count : ℕ
  progress : ℚ
  retry_count : ℕ
  parse_repair_count : ℕ
  stats : StageStats
  last_error : Option String
  created_at : ℕ
  started_at : Option ℕ
  finished_at : Option ℕ
deriving DecidableEq, Repr

/-- The observable behaviour of the collaborators during one person
iteration of `run_research_job`: the joined retrieval result, the
extraction outcome (as counted into the job record), and the measured
per-stage wall-clock durations.  Evidence rows, claims, drafts and
research questions are persisted artifacts that never feed back into
any job field and are not part of the job-record model. -/
structure PersonOutcome where
  xref : String
  retrieval_retries : ℕ
  retrieval_errors : List String
  extraction_retries : ℕ
  extraction_repairs : ℕ
  extraction_errors : List String
  parse_valid : Bool
  retrieval_ms : ℕ
  extraction_ms : ℕ
  verification_ms : ℕ
  synthesis_ms : ℕ
deriving DecidableEq, Repr

/-- The environment of one invocation of `run_research_job`: the clock,
the resolved runtime, an optional exception raised during
initialisation (caught by the job-level handler), and the loaded people
together with their per-person stage outcomes.  The people list is the
result of the snapshot/fallback selection and the database query; it
may differ in size from the job's `target_count` snapshot. -/
structure RunEnv where
  now : ℕ
  backend : String
  model : String
  init_error : Option String
  people : List PersonOutcome
deriving DecidableEq, Repr

/-- The body of the per-person loop of `run_research_job` (jobs.py
lines 287-472), as it acts on the job record: stage markers, duration
accumulation, error-log entries, counters, progress, commit.  `idx` is
the 1-based `enumerate` index and `n` the number of loaded people. -/
def processPerson (n : ℕ) (job : ResearchJob) (idx : ℕ) (p : PersonOutcome) :
    ResearchJob :=
  let job := { job with stage := "retrieval" }
  let stats := job.stats
  let stats := { stats with
    stage_durations_ms := recordDuration stats.stage_durations_ms "retrieval" p.retrieval_ms }
  let job := { job with retry_count := job.retry_count + p.retrieval_retries }
  let stats := { stats with
    errors := stats.errors ++ p.retrieval_errors.map (fun e => p.xref ++ " retrieval: " ++ e) }
  let job := { job with stage := "extraction" }
  let stats := { stats with
    stage_durations_ms := recordDuration stats.stage_durations_ms "extraction" p.extraction_ms }
  let job := { job with
    retry_count := job.retry_count + p.extraction_retries
    parse_repair_count := job.parse_repair_count + p.extraction_repairs }
  let stats := { stats with
    errors := stats.errors ++ p.extraction_errors.map (fun e => p.xref ++ " extraction: " ++ e) }
  let job := { job with stage := "verification" }
  let stats := { stats with
    stage_durations_ms := recordDuration stats.stage_durations_ms "verification" p.verification_ms }
  let job := { job with stage := "synthesis" }
  let stats := { stats with
    stage_durations_ms := recordDuration stats.stage_durations_ms "synthesis" p.synthesis_ms }
  let job :=
    if p.retrieval_errors ≠ [] ∨ p.parse_valid = false then
      { job with error_count := job.error_count + 1 }
    else job
  { job with
    completed_count := idx
    progress := pyRound 2 (((idx : ℚ) / (max 1 n : ℕ)) * 100)
    stats := stats }

/-- `run_research_job` (jobs.py lines 244-493), as it acts on the job
record.  Loading the job by id is the caller's lookup; the
collaborators (provider configs, runtime, connectors, person query and
stage functions) are summarised by `env`. -/
def runResearchJob (env : RunEnv) (job : ResearchJob) : ResearchJob :=
  if job.status = "completed" then job
  else
    let job := { job with
      status := "running"
      stage := "initializing"
      started_at := some (job.started_at.getD env.now) }
    match env.init_error with
    | some exc =>
      { job with
        status := "failed"
        stage := "failed"
        last_error := some exc
        finished_at := some env.now
        stats := { job.stats with errors := job.stats.errors ++ ["fatal: " ++ exc] } }
    | none =>
      let job := { job with llm_backend := env.backend, llm_model := env.model }
      if env.people = [] then
        { job with
          status := "completed"
          stage := "completed"
          progress := 100
          finished_at := some env.now }
      else
        let n := env.people.length
        let job := (env.people.enum).foldl
          (fun j pair => processPerson n j (pair.1 + 1) pair.2) job
        { job with
          status := "completed"
          stage := "completed"
          progress := 100
          finished_at := some env.now }

/-- `ParentProposal` (models.py), restricted to the fields read or
written by `decide_proposal`; the JSON-encoded evidence-id column is
modelled by its decoded list. -/
structure ParentProposalRec where
  candidate_name : Option String
  confidence : ℚ
  status : String
  notes : String
  evidence_ids : List Int
deriving DecidableEq, Repr

/-- `ProposalDecisionRequest` (schemas.py). -/
structure ProposalDecisionRequest where
  action : String
  candidate_name : Option String := none
  confidence : Option ℚ := none
  notes : Option String := none
deriving DecidableEq, Repr

/-- `decide_proposal` (jobs.py lines 694-734), as it acts on the
proposal row: `Except.error` models the raised `ValueError`s.  The
appended `ProposalDecision` audit row does not affect the proposal and
is not modelled. -/
def decideProposal (proposal : ParentProposalRec) (body : ProposalDecisionRequest) :
    Except String ParentProposalRec :=
  if body.action = "approve" then
    if proposal.evidence_ids = [] then
      Except.error "Cannot approve proposal without citations"
    else if ¬ optStrTruthy proposal.candidate_name then
      Except.error "Cannot approve proposal without candidate_name"
    else
      Except.ok { proposal with status := "approved" }
  else if body.action = "reject" then
    Except.ok { proposal with status := "rejected" }
  else if body.action = "edit" then
    let p :=
      match body.candidate_name with
      | none => proposal
      | some v =>
        { proposal with
          candidate_name := if pyStrip v = "" then none else some (pyStrip v) }
    let p :=
      match body.confidence with
      | none => p
      | some c => { p with confidence := max 0 (min 1 c) }
    let p :=
      match body.notes with
      | none => p
      | some text => { p with notes := text }
    Except.ok { p with status := "pending_review" }
  else
    Except.error ("Unsupported action: " ++ body.action)

/-- Spec-side (spec.md §4.4): mean of the candidate's claim
confidences. -/
def specAvgConfidence (cc : List ClaimItem) : ℚ :=
  if cc = [] then 0 else (cc.map (fun c => c.confidence)).sum / (cc.length : ℚ)

/-- Spec-side (spec.md §4.4): the union of the candidate's cited
evidence ids. -/
def specCitedIds (cc : List ClaimItem) : List Int :=
  ((cc.map (fun c => c.evidence_ids)).flatten).dedup

/-- Spec-side (spec.md §4.4):
`source_diversity = min(1, distinct_evidence_sources/3)` over the union
of cited evidence ids, looked up via the source map. -/
def specSourceDiversity (evidence_sources : Int → Option String)
    (cc : List ClaimItem) : ℚ :=
  min 1 ((distinctSources evidence_sources (specCitedIds cc) : ℚ) / 3)

/-- Spec-side (spec.md §4.4): fraction of the candidate's claims that
cite at least one evidence id. -/
def specEvidenceSpecificity (cc : List ClaimItem) : ℚ :=
  if cc = [] then 0 else ((cc.countP (fun c => !c.evidence_ids.isEmpty)) : ℚ) / (cc.length : ℚ)

/-- Spec-side (spec.md §4.4): +0.25 if the relationship has any
contradiction flags, +0.20 more if the global
same-name-for-both-relationships flag is set. -/
def specContradictionPenalty (rel_flags global_flags : List String) : ℚ :=
  (if rel_flags ≠ [] then 0.25 else 0)
    + (if "same_parent_name_for_both_relationships" ∈ global_flags then 0.2 else 0)

/-- Spec-side (spec.md §4.4): the composite score
`0.45·avg_confidence + 0.25·min(1, support_count/3)
+ 0.20·source_diversity + 0.10·evidence_specificity
− contradiction_penalty`, clamped to [0,1]. -/
def specFinalScore (cc : List ClaimItem) (evidence_sources : Int → Option String)
    (rel_flags global_flags : List String) : ℚ :=
  max 0 (min 1
    (0.45 * specAvgConfidence cc
      + 0.25 * min 1 ((cc.length : ℚ) / 3)
      + 0.20 * specSourceDiversity evidence_sources cc
      + 0.10 * specEvidenceSpecificity cc
      - specContradictionPenalty rel_flags global_flags))

/-- Spec-side (spec.md §4.1): plain first-seen-wins deduplication by
dedup key, without the result cap. -/
def dedupFirstSeen (seen : List (String × String)) :
    List SourceResult → List RetrievalEvidence
  | [] => []
  | item :: rest =>
    if dedupKey item ∈ seen then dedupFirstSeen seen rest
    else mkEvidence item :: dedupFirstSeen (dedupKey item :: seen) rest

theorem mem_insertUnique {ids : List Int} {e x : Int} :
    x ∈ insertUnique ids e ↔ x ∈ ids ∨ x = e := by
  by_cases h : e ∈ ids
  · simp only [insertUnique, if_pos h]
    constructor
    · exact Or.inl
    · rintro (hx | rfl)
      · exact hx
      · exact h
  · simp [insertUnique, if_neg h]

theorem nodup_insertUnique {ids : List Int} {e : Int} (h : ids.Nodup) :
    (insertUnique ids e).Nodup := by
  unfold insertUnique
  split
  · exact h
  · next he => simp [List.nodup_append, h, he]

theorem mem_foldl_insertUnique {x : Int} (l : List Int) :
    ∀ ids, x ∈ l.foldl insertUnique ids ↔ x ∈ ids ∨ x ∈ l := by
  induction l with
  | nil => simp
  | cons a t ih =>
    intro ids
    rw [List.foldl_cons, ih, mem_insertUnique]
    simp [or_assoc, or_comm, List.mem_cons]
    tauto

theorem nodup_foldl_insertUnique (l : List Int) :
    ∀ ids : List Int, ids.Nodup → (l.foldl insertUnique ids).Nodup := by
  induction l with
  | nil => exact fun _ h => h
  | cons a t ih =>
    intro ids h
    exact ih _ (nodup_insertUnique h)

theorem scoreLoop_confidences (cc : List ClaimItem) :
    ∀ acc : ScoreAcc,
      (cc.foldl scoreStep acc).confidences = acc.confidences ++ cc.map (fun c => c.confidence) := by
  induction cc with
  | nil => simp
  | cons c t ih =>
    intro acc
    rw [List.foldl_cons, ih]
    simp [scoreStep]

theorem scoreLoop_claims_with_evidence (cc : List ClaimItem) :
    ∀ acc : ScoreAcc,
      (cc.foldl scoreStep acc).claims_with_evidence
        = acc.claims_with_evidence + cc.countP (fun c => !c.evidence_ids.isEmpty) := by
  induction cc with
  | nil => simp
  | cons c t ih =>
    intro acc
    rw [List.foldl_cons, ih, List.countP_cons]
    simp only [scoreStep]
    rcases h : c.evidence_ids with _ | _ <;> (simp [h]; try omega)

theorem scoreLoop_evidence_mem {x : Int} (cc : List ClaimItem) :
    ∀ acc : ScoreAcc,
      x ∈ (cc.foldl scoreStep acc).evidence_ids
        ↔ x ∈ acc.evidence_ids ∨ ∃ c ∈ cc, x ∈ c.evidence_ids := by
  induction cc with
  | nil => simp
  | cons c t ih =>
    intro acc
    rw [List.foldl_cons, ih]
    simp only [scoreStep, mem_foldl_insertUnique]
    constructor
    · rintro ((h | h) | h)
      · exact Or.inl h
      · exact Or.inr ⟨c, List.mem_cons_self c t, h⟩
      · rcases h with ⟨d, hd, hx⟩
        exact Or.inr ⟨d, List.mem_cons_of_mem c hd, hx⟩
    · rintro (h | ⟨d, hd, hx⟩)
      · exact Or.inl (Or.inl h)
      · rcases List.mem_cons.1 hd with rfl | hd'
        · exact Or.inl (Or.inr hx)
        · exact Or.inr ⟨d, hd', hx⟩

theorem scoreLoop_evidence_nodup (cc : List ClaimItem) :
    ∀ acc : ScoreAcc, acc.evidence_ids.Nodup → (cc.foldl scoreStep acc).evidence_ids.Nodup := by
  induction cc with
  | nil => exact fun _ h => h
  | cons c t ih =>
    intro acc h
    exact ih _ (nodup_foldl_insertUnique _ _ h)

theorem specCitedIds_mem {x : Int} (cc : List ClaimItem) :
    x ∈ specCitedIds cc ↔ ∃ c ∈ cc, x ∈ c.evidence_ids := by
  simp [specCitedIds, List.mem_dedup, List.mem_flatten]

theorem scoreLoop_evidence_perm (cc : List ClaimItem) :
    List.Perm (scoreLoop cc).evidence_ids (specCitedIds cc) := by
  refine (List.perm_ext_iff_of_nodup ?_ ?_).2 ?_
  · exact scoreLoop_evidence_nodup cc _ List.nodup_nil
  · exact List.nodup_dedup _
  · intro a
    rw [specCitedIds_mem, scoreLoop, scoreLoop_evidence_mem]
    simp

theorem distinctSources_perm (evidence_sources : Int → Option String)
    {l₁ l₂ : List Int} (h : List.Perm l₁ l₂) :
    distinctSources evidence_sources l₁ = distinctSources evidence_sources l₂ :=
  (((h.map _).filter _).dedup).length_eq

/-- C3: for every set of candidate claims, evidence-source map and flag
lists, the score computed by `_compute_candidate_score` equals the
spec's composite formula
`0.45·avg_confidence + 0.25·min(1, support_count/3)
+ 0.20·source_diversity + 0.10·evidence_specificity −
contradiction_penalty` (penalty 0.25 for any relationship flag plus
0.20 for the global same-name flag), clamped to [0,1]; hence the final
score always lies in [0,1]. -/
theorem C3_candidate_score_formula_and_bounds
    (cc : List ClaimItem) (es : Int → Option String) (rf gf : List String) :
    (computeCandidateScore cc es rf gf).1 = specFinalScore cc es rf gf
      ∧ 0 ≤ (computeCandidateScore cc es rf gf).1
      ∧ (computeCandidateScore cc es rf gf).1 ≤ 1 := by
  have hconf := scoreLoop_confidences cc ⟨[], [], 0⟩
  have hcwe := scoreLoop_claims_with_evidence cc ⟨[], [], 0⟩
  have hdiv : distinctSources es (scoreLoop cc).evidence_ids
      = distinctSources es (specCitedIds cc) :=
    distinctSources_perm es (scoreLoop_evidence_perm cc)
  refine ⟨?_, ?_, ?_⟩
  · simp only [computeCandidateScore, specFinalScore, specAvgConfidence,
      specSourceDiversity, specEvidenceSpecificity, specContradictionPenalty, scoreLoop] at *
    rw [hconf, hcwe, hdiv]
    simp [List.length_eq_zero, List.map_eq_nil_iff]
  · simp only [computeCandidateScore]
    exact le_max_left 0 _
  · simp only [computeCandidateScore]
    exact max_le (by norm_num) (min_le_left 1 _)

theorem proposalForRel_relationship (claims : List ClaimItem)
    (es : Int → Option String) (con : ContradictionResult) (ms : ℚ) (rel : Rel) :
    (proposalForRel claims es con ms rel).relationship = rel := by
  simp only [proposalForRel]
  split_ifs <;> simp [insufficientDraft]

theorem proposalForRel_status (claims : List ClaimItem)
    (es : Int → Option String) (con : ContradictionResult) (ms : ℚ) (rel : Rel) :
    (proposalForRel claims es con ms rel).status = "pending_review" := by
  simp only [proposalForRel]
  split_ifs <;> simp [insufficientDraft]

theorem proposalForRel_cited (claims : List ClaimItem)
    (es : Int → Option String) (con : ContradictionResult) (ms : ℚ) (rel : Rel) :
    (proposalForRel claims es con ms rel).candidate_name ≠ none →
      (proposalForRel claims es con ms rel).evidence_ids ≠ [] := by
  simp only [proposalForRel]
  split_ifs with h1 h2 h3
  · simp [insufficientDraft]
  · simp [insufficientDraft]
  · simp
  · intro _
    push_neg at h2
    exact h2.2

/-- C1: every draft returned by `synthesize_proposals` with a non-null
`candidate_name` has a non-empty `evidence_ids` list, and whenever the
winning candidate of a relationship has no display name or no cited
evidence ids the draft for that relationship is forced to the
null-candidate "insufficient evidence" draft. -/
theorem C1_no_citation_invariant (claims : List ClaimItem)
    (es : Int → Option String) (con : ContradictionResult) (ms : ℚ) :
    (∀ d ∈ synthesizeProposals claims es con ms,
        d.candidate_name ≠ none → d.evidence_ids ≠ [])
    ∧ (∀ rel, buildGroups claims rel ≠ [] →
        (¬ optStrTruthy (displayName (buildGroups claims rel)
              (selectBest (buildGroups claims rel) es (con.relFlags rel) con.global_flags).name)
            ∨ (selectBest (buildGroups claims rel) es (con.relFlags rel)
                con.global_flags).evidence_ids = []) →
        proposalForRel claims es con ms rel
          = insufficientDraft rel "Insufficient evidence: no valid citations for proposal.") := by
  constructor
  · intro d hd
    simp only [synthesizeProposals, List.mem_cons, List.mem_singleton,
      List.not_mem_nil, or_false] at hd
    rcases hd with rfl | rfl
    · exact proposalForRel_cited claims es con ms Rel.father
    · exact proposalForRel_cited claims es con ms Rel.mother
  · intro rel hne hcond
    simp only [proposalForRel]
    rw [if_neg hne, if_pos hcond]

set_option maxHeartbeats 1600000 in
/-- C1 witness: on a single father claim citing evidence id 1 the father
draft carries citations; on a claim whose sole candidate name is
whitespace the winning candidate has no display name and the draft is
the forced "insufficient evidence" draft. -/
theorem C1_no_citation_invariant_witness :
    (proposalForRel
        [{ relationship := Rel.father, candidate_name := some "John Doe",
           confidence := 1, rationale := "", evidence_ids := [1] }]
        (fun _ => none) ⟨[], [], []⟩ 0.35 Rel.father).evidence_ids ≠ []
    ∧ proposalForRel
        [{ relationship := Rel.father, candidate_name := some " ",
           confidence := 1, rationale := "", evidence_ids := [1] }]
        (fun _ => none) ⟨[], [], []⟩ 0.35 Rel.father
      = insufficientDraft Rel.father
          "Insufficient evidence: no valid citations for proposal." := by
  constructor
  · have hg : buildGroups [{ relationship := Rel.father, candidate_name := some "John Doe", confidence := 1, rationale := "", evidence_ids := [1] }] Rel.father = [("john doe", [{ relationship := Rel.father, candidate_name := some "John Doe", confidence := 1, rationale := "", evidence_ids := [1] }])] := by
      simp [buildGroups, addToGroups, normName, pyWordsChars, joinWords, optStrTruthy]
    have hs : selectBest [("john doe", [{ relationship := Rel.father, candidate_name := some "John Doe", confidence := 1, rationale := "", evidence_ids := [1] }])] (fun _ => none) [] [] = { name := "john doe", score := 19/30, components := { avg_confidence := 1, support_count := 1, source_diversity := 0, evidence_specificity := 1, contradiction_penalty := 0, final_score := 633/1000 }, evidence_ids := [1] } := by
      norm_num [selectBest, computeCandidateScore, scoreLoop, scoreStep, insertUnique,
        distinctSources, pyRound, halfEvenRound, sortInts, sortByLe, insertLe]
    have hd : displayName [("john doe", [{ relationship := Rel.father, candidate_name := some "John Doe", confidence := 1, rationale := "", evidence_ids := [1] }])] "john doe" = some "John Doe" := by
      simp [displayName, optStrTruthy, pyStrip, List.lookup, List.find?]
    have hcand : (proposalForRel [{ relationship := Rel.father, candidate_name := some "John Doe", confidence := 1, rationale := "", evidence_ids := [1] }] (fun _ => none) ⟨[], [], []⟩ 0.35 Rel.father).candidate_name = some "John Doe" := by
      norm_num [proposalForRel, hg, hs, hd, optStrTruthy, ContradictionResult.relFlags,
        sortedDedup, sortByLe, insertLe]
      split_ifs with h
      · exact absurd h (by simp)
      · rfl
    exact (C1_no_citation_invariant
        [{ relationship := Rel.father, candidate_name := some "John Doe",
           confidence := 1, rationale := "", evidence_ids := [1] }]
        (fun _ => none) ⟨[], [], []⟩ 0.35).1 _
      (by simp [synthesizeProposals]) (by rw [hcand]; simp)
  · have hg : buildGroups [{ relationship := Rel.father, candidate_name := some " ", confidence := 1, rationale := "", evidence_ids := [1] }] Rel.father = [("", [{ relationship := Rel.father, candidate_name := some " ", confidence := 1, rationale := "", evidence_ids := [1] }])] := by
      simp [buildGroups, addToGroups, normName, pyWordsChars, joinWords, optStrTruthy]
    have hs : selectBest [("", [{ relationship := Rel.father, candidate_name := some " ", confidence := 1, rationale := "", evidence_ids := [1] }])] (fun _ => none) [] [] = { name := "", score := 19/30, components := { avg_confidence := 1, support_count := 1, source_diversity := 0, evidence_specificity := 1, contradiction_penalty := 0, final_score := 633/1000 }, evidence_ids := [1] } := by
      norm_num [selectBest, computeCandidateScore, scoreLoop, scoreStep, insertUnique,
        distinctSources, pyRound, halfEvenRound, sortInts, sortByLe, insertLe]
    have hd : displayName [("", [{ relationship := Rel.father, candidate_name := some " ", confidence := 1, rationale := "", evidence_ids := [1] }])] "" = some "" := by
      simp [displayName, optStrTruthy, pyStrip, List.lookup, List.find?]
    exact (C1_no_citation_invariant
        [{ relationship := Rel.father, candidate_name := some " ",
           confidence := 1, rationale := "", evidence_ids := [1] }]
        (fun _ => none) ⟨[], [], []⟩ 0.35).2 Rel.father
      (by rw [hg]; simp)
      (by simp only [ContradictionResult.relFlags, hg, hs]
          exact Or.inl (by rw [hd]; simp [optStrTruthy]))

/-- C10: for every input, `synthesize_proposals` returns exactly two
drafts, the first for father and the second for mother, and every
returned draft has status `pending_review`. -/
theorem C10_two_pending_drafts (claims : List ClaimItem)
    (es : Int → Option String) (con : ContradictionResult) (ms : ℚ) :
    ∃ df dm, synthesizeProposals claims es con ms = [df, dm]
      ∧ df.relationship = Rel.father ∧ dm.relationship = Rel.mother
      ∧ ∀ d ∈ synthesizeProposals claims es con ms, d.status = "pending_review" := by
  refine ⟨_, _, rfl, proposalForRel_relationship claims es con ms Rel.father,
    proposalForRel_relationship claims es con ms Rel.mother, ?_⟩
  intro d hd
  simp only [synthesizeProposals, List.mem_cons, List.mem_singleton,
    List.not_mem_nil, or_false] at hd
  rcases hd with rfl | rfl
  · exact proposalForRel_status claims es con ms Rel.father
  · exact proposalForRel_status claims es con ms Rel.mother

/-- C10 witness: on empty input the two drafts are both
`pending_review`. -/
theorem C10_two_pending_drafts_witness :
    (synthesizeProposals [] (fun _ => none) ⟨[], [], []⟩ 0.35).map ProposalDraft.status
      = ["pending_review", "pending_review"] := by
  obtain ⟨df, dm, heq, hfr, hmr, hstat⟩ :=
    C10_two_pending_drafts [] (fun _ => none) ⟨[], [], []⟩ 0.35
  rw [heq]
  simp only [List.map_cons, List.map_nil]
  rw [hstat df (by rw [heq]; exact List.mem_cons_self _ _),
    hstat dm (by rw [heq]; exact List.mem_cons_of_mem _ (List.mem_cons_self _ _))]

theorem mem_insertLe {α : Type} (le : α → α → Bool) (x y : α) (l : List α) :
    y ∈ insertLe le x l ↔ y = x ∨ y ∈ l := by
  induction l with
  | nil => simp [insertLe]
  | cons z zs ih =>
    simp only [insertLe]
    split
    · simp
    · rw [List.mem_cons, ih, List.mem_cons]
      tauto

theorem mem_sortByLe {α : Type} (le : α → α → Bool) (y : α) (l : List α) :
    y ∈ sortByLe le l ↔ y ∈ l := by
  induction l with
  | nil => simp [sortByLe]
  | cons z zs ih =>
    simp only [sortByLe]
    rw [mem_insertLe, ih, List.mem_cons]

theorem mem_sortedDedup (y : String) (l : List String) :
    y ∈ sortedDedup l ↔ y ∈ l := by
  rw [sortedDedup, mem_sortByLe, List.mem_dedup]

theorem relFlags_appendFlag (st : CState) (r' rel : Rel) (flag : String) :
    (st.appendFlag r' flag).relFlags rel =
      if r' = rel then st.relFlags rel ++ [flag] else st.relFlags rel := by
  cases r' <;> cases rel <;> simp [CState.appendFlag, CState.relFlags]

theorem relFlags_addHighConf (st : CState) (r' rel : Rel) (nm : String) :
    ((st.addHighConf r' nm).relFlags rel) = st.relFlags rel := by
  cases r' <;> cases rel <;> simp [CState.addHighConf, CState.relFlags]

theorem relFlags_setTop (st : CState) (r' rel : Rel) (nm : String) (conf : ℚ) :
    ((st.setTop r' nm conf).relFlags rel) = st.relFlags rel := by
  cases r' <;> cases rel <;> simp [CState.setTop, CState.relFlags]

theorem chronology_mem_cStepPre (pn : String) (st : CState) (c : ClaimItem) (rel : Rel) :
    ("chronology_conflict" ∈ (cStepPre pn st c).relFlags rel ↔
      "chronology_conflict" ∈ st.relFlags rel) := by
  simp only [cStepPre]
  split <;> split <;> split <;>
    simp only [relFlags_setTop, relFlags_addHighConf, relFlags_appendFlag] <;>
    (try split) <;> simp

theorem chronology_mem_cStep (pn : String) (oby : Option Int) (st : CState)
    (c : ClaimItem) (rel : Rel) :
    ("chronology_conflict" ∈ (cStep pn oby st c).relFlags rel ↔
      "chronology_conflict" ∈ st.relFlags rel ∨
        (c.relationship = rel ∧ birthYearTruthy oby = true ∧
          ∃ y, extractYear c.rationale = some y ∧ (oby.getD 0) - 12 < (y : Int))) := by
  simp only [cStep]
  rcases hy : extractYear c.rationale with _ | y
  · simp [chronology_mem_cStepPre, hy]
  · simp only [hy]
    split
    · next hcond =>
      rw [relFlags_appendFlag]
      by_cases hrel : c.relationship = rel
      · rw [if_pos hrel]
        simp [chronology_mem_cStepPre, hrel, hcond.1, hcond.2, hy]
      · rw [if_neg hrel]
        simp [chronology_mem_cStepPre, hrel, hy]
    · next hcond =>
      rw [chronology_mem_cStepPre]
      constructor
      · exact Or.inl
      · rintro (h | ⟨_, hby, y', hy', hlt⟩)
        · exact h
        · rw [Option.some_inj] at hy'
          subst hy'
          exact absurd ⟨hby, hlt⟩ hcond

theorem chronology_mem_fold (pn : String) (oby : Option Int) (claims : List ClaimItem)
    (rel : Rel) :
    ∀ st : CState,
      ("chronology_conflict" ∈ (claims.foldl (cStep pn oby) st).relFlags rel ↔
        "chronology_conflict" ∈ st.relFlags rel ∨
          ∃ c ∈ claims, c.relationship = rel ∧ birthYearTruthy oby = true ∧
            ∃ y, extractYear c.rationale = some y ∧ (oby.getD 0) - 12 < (y : Int)) := by
  induction claims with
  | nil => simp
  | cons c t ih =>
    intro st
    rw [List.foldl_cons, ih, chronology_mem_cStep]
    constructor
    · rintro ((h | h) | h)
      · exact Or.inl h
      · exact Or.inr ⟨c, List.mem_cons_self c t, h⟩
      · rcases h with ⟨d, hd, hprop⟩
        exact Or.inr ⟨d, List.mem_cons_of_mem c hd, hprop⟩
    · rintro (h | ⟨d, hd, hprop⟩)
      · exact Or.inl (Or.inl h)
      · rcases List.mem_cons.1 hd with rfl | hd'
        · exact Or.inl (Or.inr hprop)
        · exact Or.inr ⟨d, hd', hprop⟩

theorem chronology_mem_result (p : PersonLike) (claims : List ClaimItem) (rel : Rel) :
    ("chronology_conflict" ∈ (evaluateContradictions p claims).relFlags rel ↔
      ∃ c ∈ claims, c.relationship = rel ∧ birthYearTruthy p.birth_year = true ∧
        ∃ y, extractYear c.rationale = some y ∧ (p.birth_year.getD 0) - 12 < (y : Int)) := by
  have hfold := chronology_mem_fold (normName (some p.name)) p.birth_year claims rel
    ⟨[], [], [], [], none, none, -1, -1⟩
  simp only [CState.relFlags] at hfold
  cases rel <;>
    · simp only [evaluateContradictions, ContradictionResult.relFlags, mem_sortedDedup]
      split <;> simp_all [CState.relFlags]

/-- C6 (amended): for every person with a known non-zero birth year,
`evaluate_contradictions` attaches `chronology_conflict` to a claim's
relationship exactly when some claim of that relationship has a
rationale whose extracted 4-digit year (last occurrence, kept only in
1500..2100) satisfies `rationale_year > birth_year - 12`; when the birth
year is unknown or zero (falsy) the flag is never attached. -/
theorem C6_chronology_flag (p : PersonLike) (claims : List ClaimItem) (rel : Rel) :
    (∀ b : Int, p.birth_year = some b → b ≠ 0 →
      ("chronology_conflict" ∈ (evaluateContradictions p claims).relFlags rel ↔
        ∃ c ∈ claims, c.relationship = rel ∧
          ∃ y, extractYear c.rationale = some y ∧ b - 12 < (y : Int)))
    ∧ ((p.birth_year = none ∨ p.birth_year = some 0) →
        "chronology_conflict" ∉ (evaluateContradictions p claims).relFlags rel) := by
  constructor
  · intro b hb hnz
    rw [chronology_mem_result, hb]
    simp [birthYearTruthy, hnz]
  · intro hb
    rw [chronology_mem_result]
    rcases hb with hb | hb <;> simp [hb, birthYearTruthy]

/-- C6 witness: for a person born 1930 and a father claim whose
rationale mentions 1925 (with 1925 > 1930 − 12) the flag is attached;
removing the year from the rationale removes the flag. -/
theorem C6_chronology_flag_witness :
    "chronology_conflict" ∈ (evaluateContradictions ⟨"Jane Doe", some 1930⟩
      [{ relationship := Rel.father, candidate_name := none, confidence := 0,
         rationale := "census of 1925", evidence_ids := [] }]).relFlags Rel.father
    ∧ "chronology_conflict" ∉ (evaluateContradictions ⟨"Jane Doe", some 1930⟩
      [{ relationship := Rel.father, candidate_name := none, confidence := 0,
         rationale := "no year here", evidence_ids := [] }]).relFlags Rel.father := by
  constructor
  · exact ((C6_chronology_flag ⟨"Jane Doe", some 1930⟩
      [{ relationship := Rel.father, candidate_name := none, confidence := 0,
         rationale := "census of 1925", evidence_ids := [] }] Rel.father).1 1930 rfl
      (by decide)).2
      ⟨_, List.mem_singleton.2 rfl, rfl, 1925, by decide, by decide⟩
  · intro hmem
    rcases (((C6_chronology_flag ⟨"Jane Doe", some 1930⟩
        [{ relationship := Rel.father, candidate_name := none, confidence := 0,
           rationale := "no year here", evidence_ids := [] }] Rel.father).1 1930 rfl
        (by decide)).1 hmem) with ⟨c, hc, _, y, hy, _⟩
    rw [List.mem_singleton] at hc
    subst hc
    rw [show extractYear "no year here" = none from by decide] at hy
    exact Option.noConfusion hy

/-- C6 counterexample: a person whose stored birth year is `0` has a
known birth year, and the claim rationale contains the in-range year
1600 with `1600 > 0 − 12`, yet the code attaches no flag (Python
truthiness treats birth year 0 like an unknown year). -/
theorem C6_chronology_flag_counterexample :
    (⟨"X", some 0⟩ : PersonLike).birth_year = some 0
    ∧ extractYear "born 1600" = some 1600
    ∧ ((0 : Int) - 12 < 1600)
    ∧ "chronology_conflict" ∉ (evaluateContradictions ⟨"X", some 0⟩
        [{ relationship := Rel.father, candidate_name := none, confidence := 0,
           rationale := "born 1600", evidence_ids := [] }]).relFlags Rel.father := by
  refine ⟨rfl, by decide, by decide, ?_⟩
  rw [chronology_mem_result]
  simp [birthYearTruthy]

/-- C4: extraction makes at most two LLM calls; a transport failure on
the first call returns immediately with zero claims, `parse_valid =
false` and no repair call; a parse failure triggers exactly one repair
call, and if the repair fails too (parse failure or transport failure)
the outcome is zero claims, `parse_valid = false`, with both failure
reasons recorded; a malformed first output followed by a well-formed
repair yields `retries_used = 1`, `repairs_used = 1`,
`parse_valid = true`. -/
theorem C4_extraction_repair_protocol (gen : ℕ → Except String String)
    (parse : String → Except String (List ClaimItem)) :
    (extractClaimsForPerson (some gen) parse).2 ≤ 2
    ∧ (∀ e, gen 0 = Except.error e →
        extractClaimsForPerson (some gen) parse =
          ({ claims := [], parse_valid := false, raw_text := "", retries_used := 0,
             repairs_used := 0, errors := ["LLM request failed: " ++ e] }, 1))
    ∧ (∀ raw e1, gen 0 = Except.ok raw → parse raw = Except.error e1 →
        (extractClaimsForPerson (some gen) parse).2 = 2)
    ∧ (∀ raw e1 raw2 e2, gen 0 = Except.ok raw → parse raw = Except.error e1 →
        gen 1 = Except.ok raw2 → parse raw2 = Except.error e2 →
        extractClaimsForPerson (some gen) parse =
          ({ claims := [], parse_valid := false, raw_text := raw, retries_used := 1,
             repairs_used := 1
             errors := ["Primary parse failed: " ++ e1, "Repair parse failed: " ++ e2] }, 2))
    ∧ (∀ raw e1 e2, gen 0 = Except.ok raw → parse raw = Except.error e1 →
        gen 1 = Except.error e2 →
        extractClaimsForPerson (some gen) parse =
          ({ claims := [], parse_valid := false, raw_text := raw, retries_used := 1,
             repairs_used := 1
             errors := ["Primary parse failed: " ++ e1, "Repair parse failed: " ++ e2] }, 2))
    ∧ (∀ raw e1 raw2 claims2, gen 0 = Except.ok raw → parse raw = Except.error e1 →
        gen 1 = Except.ok raw2 → parse raw2 = Except.ok claims2 →
        extractClaimsForPerson (some gen) parse =
          ({ claims := claims2, parse_valid := true, raw_text := raw2, retries_used := 1,
             repairs_used := 1, errors := ["Primary parse failed: " ++ e1] }, 2)) := by
  refine ⟨?_, ?_, ?_, ?_, ?_, ?_⟩
  · rcases h0 : gen 0 with e | raw
    · simp [extractClaimsForPerson, h0]
    · rcases hp : parse raw with e1 | cs
      · rcases h1 : gen 1 with e2 | raw2
        · simp [extractClaimsForPerson, h0, hp, h1]
        · rcases hp2 : parse raw2 with e2 | cs2 <;>
            simp [extractClaimsForPerson, h0, hp, h1, hp2]
      · simp [extractClaimsForPerson, h0, hp]
  · intro e h0
    simp [extractClaimsForPerson, h0]
  · intro raw e1 h0 hp
    rcases h1 : gen 1 with e2 | raw2
    · simp [extractClaimsForPerson, h0, hp, h1]
    · rcases hp2 : parse raw2 with e2 | cs2 <;>
        simp [extractClaimsForPerson, h0, hp, h1, hp2]
  · intro raw e1 raw2 e2 h0 hp h1 hp2
    simp [extractClaimsForPerson, h0, hp, h1, hp2]
  · intro raw e1 e2 h0 hp h1
    simp [extractClaimsForPerson, h0, hp, h1]
  · intro raw e1 raw2 claims2 h0 hp h1 hp2
    simp [extractClaimsForPerson, h0, hp, h1, hp2]

/-- C4 witness: an LLM that answers "bad" then "good", with a parser
accepting only "good", yields the repaired outcome with
`retries_used = 1`, `repairs_used = 1`, `parse_valid = true` after
exactly two calls. -/
theorem C4_extraction_repair_protocol_witness :
    extractClaimsForPerson
        (some (fun n => if n = 0 then Except.ok "bad" else Except.ok "good"))
        (fun s => if s = "good" then Except.ok [] else Except.error "boom") =
      ({ claims := [], parse_valid := true, raw_text := "good", retries_used := 1,
         repairs_used := 1, errors := ["Primary parse failed: boom"] }, 2) :=
  (C4_extraction_repair_protocol
      (fun n => if n = 0 then Except.ok "bad" else Except.ok "good")
      (fun s => if s = "good" then Except.ok [] else Except.error "boom")).2.2.2.2.2
    "bad" "boom" "good" [] rfl rfl rfl rfl

/-- Dedup key of a produced evidence row. -/
def evidenceKey (e : RetrievalEvidence) : String × String :=
  (e.normalized_url, e.normalized_title_hash)

theorem dedupCap_eq_take (mt : ℕ) :
    ∀ (l : List SourceResult) (seen : List (String × String))
      (acc : List RetrievalEvidence), acc.length < mt →
      dedupCap mt seen acc l = acc ++ (dedupFirstSeen seen l).take (mt - acc.length) := by
  intro l
  induction l with
  | nil => simp [dedupCap, dedupFirstSeen]
  | cons item rest ih =>
    intro seen acc hlt
    simp only [dedupCap, dedupFirstSeen]
    by_cases hk : dedupKey item ∈ seen
    · rw [if_pos hk, if_pos hk]
      exact ih seen acc hlt
    · rw [if_neg hk, if_neg hk]
      by_cases hfull : mt ≤ (acc ++ [mkEvidence item]).length
      · rw [if_pos hfull]
        have h1 : mt - acc.length = 1 := by
          simp only [List.length_append, List.length_singleton] at hfull
          omega
        rw [h1]
        simp
      · rw [if_neg hfull]
        simp only [List.length_append, List.length_singleton] at hfull
        rw [ih (dedupKey item :: seen) (acc ++ [mkEvidence item]) (by simp; omega)]
        have h2 : mt - acc.length = (mt - (acc.length + 1)) + 1 := by omega
        rw [h2]
        simp [List.take_succ_cons]

theorem dedupFirstSeen_keys (l : List SourceResult) :
    ∀ seen, ((dedupFirstSeen seen l).map evidenceKey).Nodup
      ∧ ∀ e ∈ dedupFirstSeen seen l, evidenceKey e ∉ seen := by
  induction l with
  | nil => simp [dedupFirstSeen]
  | cons item rest ih =>
    intro seen
    by_cases hk : dedupKey item ∈ seen
    · simp only [dedupFirstSeen, if_pos hk]
      exact ih seen
    · simp only [dedupFirstSeen, if_neg hk]
      obtain ⟨hnodup, hnot⟩ := ih (dedupKey item :: seen)
      have hkey : evidenceKey (mkEvidence item) = dedupKey item := rfl
      constructor
      · rw [List.map_cons, List.nodup_cons]
        refine ⟨?_, hnodup⟩
        rw [hkey]
        intro hmem
        rcases List.mem_map.1 hmem with ⟨e, he, hke⟩
        exact hnot e he (hke ▸ List.mem_cons_self _ _)
      · intro e he
        rcases List.mem_cons.1 he with rfl | he'
        · rw [hkey]; exact hk
        · intro hmem
          exact hnot e he' (List.mem_cons_of_mem _ hmem)

theorem dedupFirstSeen_complete (l : List SourceResult) :
    ∀ seen, ∀ item ∈ l, dedupKey item ∈ seen
      ∨ ∃ e ∈ dedupFirstSeen seen l, evidenceKey e = dedupKey item := by
  induction l with
  | nil => simp
  | cons hd rest ih =>
    intro seen item hitem
    rcases List.mem_cons.1 hitem with rfl | hmem
    · by_cases hk : dedupKey item ∈ seen
      · exact Or.inl hk
      · refine Or.inr ⟨mkEvidence item, ?_, rfl⟩
        simp [dedupFirstSeen, if_neg hk]
    · by_cases hk : dedupKey hd ∈ seen
      · rcases ih seen item hmem with h | ⟨e, he, hke⟩
        · exact Or.inl h
        · exact Or.inr ⟨e, by simp [dedupFirstSeen, if_pos hk, he], hke⟩
      · rcases ih (dedupKey hd :: seen) item hmem with h | ⟨e, he, hke⟩
        · rcases List.mem_cons.1 h with heq | h'
          · refine Or.inr ⟨mkEvidence hd, ?_, ?_⟩
            · simp [dedupFirstSeen, if_neg hk]
            · rw [heq]; rfl
          · exact Or.inl h'
        · exact Or.inr ⟨e, by simp [dedupFirstSeen, if_neg hk, he], hke⟩

/-- C5 (amended): with a positive `max_total`, `retrieve_evidence`
truncates each connector's results to `max_results_per_connector`,
merges them in connector submission order then per-connector order,
deduplicates by (normalized URL, normalized-title hash) with first-seen
wins, and caps the result at `max_total` items; no two returned items
share a dedup key, and when the cap is not reached every merged result
is represented by exactly one returned item.  (With `max_total = 0` the
source still returns the first deduplicated item, see the
counterexample.) -/
theorem C5_retrieval_merge_dedup_cap (results : List ConnectorFetchResult)
    (mpc mt : ℕ) (hmt : 1 ≤ mt) :
    (retrieveEvidence results mpc mt).evidence
        = (dedupFirstSeen [] ((results.map (fun r => r.items.take mpc)).flatten)).take mt
    ∧ ((retrieveEvidence results mpc mt).evidence.map evidenceKey).Nodup
    ∧ ((dedupFirstSeen [] ((results.map (fun r => r.items.take mpc)).flatten)).length ≤ mt →
        ∀ item ∈ (results.map (fun r => r.items.take mpc)).flatten,
          ∃ e ∈ (retrieveEvidence results mpc mt).evidence, evidenceKey e = dedupKey item)
    ∧ (retrieveEvidence results mpc mt).evidence.length ≤ mt
    ∧ (retrieveEvidence results mpc mt).retries_used
        = (results.map (fun r => r.retries_used)).sum
    ∧ (retrieveEvidence results mpc mt).errors = (results.map (fun r => r.errors)).flatten := by
  have heq : (retrieveEvidence results mpc mt).evidence
      = (dedupFirstSeen [] ((results.map (fun r => r.items.take mpc)).flatten)).take mt := by
    have h := dedupCap_eq_take mt ((results.map (fun r => r.items.take mpc)).flatten) [] []
      (by simpa using hmt)
    simpa [retrieveEvidence] using h
  refine ⟨heq, ?_, ?_, ?_, rfl, rfl⟩
  · rw [heq, List.map_take]
    exact (dedupFirstSeen_keys _ []).1.sublist (List.take_sublist _ _)
  · intro hlen item hitem
    rcases dedupFirstSeen_complete _ [] item hitem with h | ⟨e, he, hke⟩
    · exact absurd h (List.not_mem_nil _)
    · refine ⟨e, ?_, hke⟩
      rw [heq, List.take_of_length_le hlen]
      exact he
  · rw [heq]
    simp [List.length_take]

/-- C5 witness: two connectors returning the same result up to URL and
title normalization yield exactly one evidence item, and returned dedup
keys are distinct. -/
theorem C5_retrieval_merge_dedup_cap_witness :
    ((retrieveEvidence [⟨[⟨"srcA", "A  B", "HTTP://X.com/", ""⟩], 0, []⟩,
        ⟨[⟨"srcB", " a b ", "http://x.com", ""⟩], 0, []⟩] 6 24).evidence.map evidenceKey).Nodup
    ∧ (retrieveEvidence [⟨[⟨"srcA", "A  B", "HTTP://X.com/", ""⟩], 0, []⟩,
        ⟨[⟨"srcB", " a b ", "http://x.com", ""⟩], 0, []⟩] 6 24).evidence.length = 1 := by
  refine ⟨(C5_retrieval_merge_dedup_cap [⟨[⟨"srcA", "A  B", "HTTP://X.com/", ""⟩], 0, []⟩,
      ⟨[⟨"srcB", " a b ", "http://x.com", ""⟩], 0, []⟩] 6 24 (by decide)).2.1, ?_⟩
  decide

/-- C5 counterexample: with `max_total = 0` the returned evidence list
is not capped at `max_total`: a single connector result still yields one
evidence item (the source's dedup loop checks the cap only after
appending). -/
theorem C5_retrieval_merge_dedup_cap_counterexample :
    (retrieveEvidence [⟨[⟨"srcA", "T", "http://x.com/a", ""⟩], 0, []⟩] 6 0).evidence.length = 1
    ∧ ¬ ((retrieveEvidence [⟨[⟨"srcA", "T", "http://x.com/a", ""⟩], 0, []⟩] 6 0).evidence.length ≤ 0) := by
  decide

theorem halfEvenRound_bounds (q : ℚ) (B : ℤ) (h0 : 0 ≤ q) (hB : q ≤ (B : ℚ)) :
    0 ≤ halfEvenRound q ∧ halfEvenRound q ≤ B := by
  have hf0 : 0 ≤ ⌊q⌋ := Int.floor_nonneg.2 h0
  have hfB : ⌊q⌋ ≤ B := by
    have := Int.floor_le_floor hB
    simpa using this
  have hfq : (⌊q⌋ : ℚ) ≤ q := Int.floor_le q
  unfold halfEvenRound
  split_ifs with ha hb hc
  · exact ⟨hf0, hfB⟩
  · refine ⟨by omega, ?_⟩
    by_contra hcon
    have hBf : B ≤ ⌊q⌋ := by omega
    have : q ≤ (⌊q⌋ : ℚ) := le_trans hB (by exact_mod_cast hBf)
    linarith
  · exact ⟨hf0, hfB⟩
  · refine ⟨by omega, ?_⟩
    have heq : 2 * q = 2 * (⌊q⌋ : ℚ) + 1 := le_antisymm (not_lt.1 hb) (not_lt.1 ha)
    by_contra hcon
    have hBf : B ≤ ⌊q⌋ := by omega
    have : q ≤ (⌊q⌋ : ℚ) := le_trans hB (by exact_mod_cast hBf)
    linarith

theorem pyRound_two_bounds (q : ℚ) (h0 : 0 ≤ q) (h100 : q ≤ 100) :
    0 ≤ pyRound 2 q ∧ pyRound 2 q ≤ 100 := by
  have h := halfEvenRound_bounds (q * 10 ^ 2) 10000 (by positivity) (by push_cast; nlinarith)
  unfold pyRound
  constructor
  · have : (0 : ℚ) ≤ (halfEvenRound (q * 10 ^ 2) : ℚ) := by exact_mod_cast h.1
    positivity
  · rw [div_le_iff₀ (by norm_num)]
    calc (halfEvenRound (q * 10 ^ 2) : ℚ) ≤ 10000 := by exact_mod_cast h.2
    _ = 100 * 10 ^ 2 := by norm_num

/-- C7 (amended): after processing each person, the job's
`completed_count` is the 1-based loop index and its `progress` equals
`completed_count` divided by the number of people actually loaded for
the run (`max 1 n`, which can differ from `target_count`), times 100,
rounded to two decimals; progress always lies in [0, 100]. -/
theorem C7_progress_formula (n idx : ℕ) (job : ResearchJob) (p : PersonOutcome)
    (h1 : 1 ≤ idx) (h2 : idx ≤ n) :
    (processPerson n job idx p).completed_count = idx
    ∧ (processPerson n job idx p).progress = pyRound 2 (((idx : ℚ) / ((max 1 n : ℕ) : ℚ)) * 100)
    ∧ 0 ≤ (processPerson n job idx p).progress
    ∧ (processPerson n job idx p).progress ≤ 100 := by
  have hprog : (processPerson n job idx p).progress
      = pyRound 2 (((idx : ℚ) / ((max 1 n : ℕ) : ℚ)) * 100) := by
    simp [processPerson]
  have hden : (0 : ℚ) < ((max 1 n : ℕ) : ℚ) := by
    have : 1 ≤ max 1 n := le_max_left 1 n
    exact_mod_cast Nat.lt_of_lt_of_le Nat.zero_lt_one this
  have harg0 : 0 ≤ ((idx : ℚ) / ((max 1 n : ℕ) : ℚ)) * 100 := by positivity
  have harg100 : ((idx : ℚ) / ((max 1 n : ℕ) : ℚ)) * 100 ≤ 100 := by
    have hle : (idx : ℚ) ≤ ((max 1 n : ℕ) : ℚ) := by
      exact_mod_cast le_trans h2 (le_max_right 1 n)
    have : (idx : ℚ) / ((max 1 n : ℕ) : ℚ) ≤ 1 := by
      rw [div_le_one hden]
      exact hle
    nlinarith
  have hb := pyRound_two_bounds _ harg0 harg100
  exact ⟨by simp [processPerson], hprog, by rw [hprog]; exact hb.1, by rw [hprog]; exact hb.2⟩

/-- C7 witness: at index 1 of 2 loaded people the progress is 50.0. -/
theorem C7_progress_formula_witness :
    (processPerson 2
        ⟨"running", "synthesis", "none", "", 2, 0, 0, 0, 0, 0, ⟨[], [], []⟩, none, 0, some 1, none⟩
        1 ⟨"@I1@", 0, [], 0, 0, [], true, 1, 1, 1, 1⟩).completed_count = 1
    ∧ (processPerson 2
        ⟨"running", "synthesis", "none", "", 2, 0, 0, 0, 0, 0, ⟨[], [], []⟩, none, 0, some 1, none⟩
        1 ⟨"@I1@", 0, [], 0, 0, [], true, 1, 1, 1, 1⟩).progress = 50 := by
  have h := C7_progress_formula 2 1
    ⟨"running", "synthesis", "none", "", 2, 0, 0, 0, 0, 0, ⟨[], [], []⟩, none, 0, some 1, none⟩
    ⟨"@I1@", 0, [], 0, 0, [], true, 1, 1, 1, 1⟩ (by decide) (by decide)
  refine ⟨h.1, ?_⟩
  rw [h.2.1]
  norm_num [pyRound, halfEvenRound]

/-- C7 counterexample: the source divides by the number of people
loaded at run time, not by `target_count`: with `target_count = 2` but a
single loaded person, progress after the first person is 100.00 while
`completed_count/target_count × 100` is 50.00. -/
theorem C7_progress_formula_counterexample :
    (processPerson 1
        ⟨"running", "synthesis", "none", "", 2, 0, 0, 0, 0, 0, ⟨[], [], []⟩, none, 0, some 1, none⟩
        1 ⟨"@I1@", 0, [], 0, 0, [], true, 1, 1, 1, 1⟩).completed_count = 1
    ∧ (processPerson 1
        ⟨"running", "synthesis", "none", "", 2, 0, 0, 0, 0, 0, ⟨[], [], []⟩, none, 0, some 1, none⟩
        1 ⟨"@I1@", 0, [], 0, 0, [], true, 1, 1, 1, 1⟩).target_count = 2
    ∧ (processPerson 1
        ⟨"running", "synthesis", "none", "", 2, 0, 0, 0, 0, 0, ⟨[], [], []⟩, none, 0, some 1, none⟩
        1 ⟨"@I1@", 0, [], 0, 0, [], true, 1, 1, 1, 1⟩).progress = 100
    ∧ pyRound 2 (((1 : ℚ) / 2) * 100) = 50
    ∧ (100 : ℚ) ≠ 50 := by
  refine ⟨rfl, rfl, ?_, ?_, by norm_num⟩
  · have : (processPerson 1
        ⟨"running", "synthesis", "none", "", 2, 0, 0, 0, 0, 0, ⟨[], [], []⟩, none, 0, some 1, none⟩
        1 ⟨"@I1@", 0, [], 0, 0, [], true, 1, 1, 1, 1⟩).progress
        = pyRound 2 (((1 : ℚ) / ((max 1 1 : ℕ) : ℚ)) * 100) := by
      simp [processPerson]
    rw [this]
    norm_num [pyRound, halfEvenRound]
  · norm_num [pyRound, halfEvenRound]

/-- C2 (amended): re-invoking `run_research_job` is a no-op exactly for
jobs whose status is 'completed': the job is returned with no field
mutated.  (A 'failed' job is re-executed, see the counterexample.) -/
theorem C2_completed_noop (env : RunEnv) (job : ResearchJob)
    (h : job.status = "completed") : runResearchJob env job = job := by
  simp [runResearchJob, h]

/-- C2 witness: a concrete completed job is returned unchanged. -/
theorem C2_completed_noop_witness :
    runResearchJob ⟨7, "openai", "m", none, []⟩
        ⟨"completed", "completed", "openai", "m", 1, 1, 0, 100, 0, 0, ⟨["@I1@"], [], []⟩, none, 0, some 1, some 2⟩
      = ⟨"completed", "completed", "openai", "m", 1, 1, 0, 100, 0, 0, ⟨["@I1@"], [], []⟩, none, 0, some 1, some 2⟩ :=
  C2_completed_noop ⟨7, "openai", "m", none, []⟩
    ⟨"completed", "completed", "openai", "m", 1, 1, 0, 100, 0, 0, ⟨["@I1@"], [], []⟩, none, 0, some 1, some 2⟩ rfl

/-- C2 counterexample: a 'failed' job is not immutable under
`run_research_job`: the source only short-circuits on 'completed', so a
failed job is re-run (here it ends 'completed' with mutated fields). -/
theorem C2_failed_rerun_counterexample :
    (⟨"failed", "failed", "none", "", 0, 0, 0, 0, 0, 0, ⟨[], [], []⟩, some "boom", 0, some 1, some 2⟩
        : ResearchJob).status = "failed"
    ∧ (runResearchJob ⟨7, "openai", "m", none, []⟩
        ⟨"failed", "failed", "none", "", 0, 0, 0, 0, 0, 0, ⟨[], [], []⟩, some "boom", 0, some 1, some 2⟩).status
      = "completed"
    ∧ runResearchJob ⟨7, "openai", "m", none, []⟩
        ⟨"failed", "failed", "none", "", 0, 0, 0, 0, 0, 0, ⟨[], [], []⟩, some "boom", 0, some 1, some 2⟩
      ≠ ⟨"failed", "failed", "none", "", 0, 0, 0, 0, 0, 0, ⟨[], [], []⟩, some "boom", 0, some 1, some 2⟩ := by
  refine ⟨rfl, rfl, fun h => ?_⟩
  exact absurd (congrArg ResearchJob.status h) (by decide)

/-- C8 (amended): `decide_proposal` enforces no terminal guard: on a
proposal whose status is 'applied' or 'rejected', an 'edit' decision
succeeds and resets the status to 'pending_review', a 'reject' decision
sets it to 'rejected', and an 'approve' decision on a cited, named
proposal sets it to 'approved'; so 'applied'/'rejected' are not
terminal under `decide_proposal`. -/
theorem C8_no_terminal_guard (p : ParentProposalRec)
    (_h : p.status = "applied" ∨ p.status = "rejected") :
    decideProposal p ⟨"edit", none, none, none⟩
        = Except.ok { p with status := "pending_review" }
    ∧ decideProposal p ⟨"reject", none, none, none⟩
        = Except.ok { p with status := "rejected" }
    ∧ (p.evidence_ids ≠ [] → optStrTruthy p.candidate_name = true →
        decideProposal p ⟨"approve", none, none, none⟩
          = Except.ok { p with status := "approved" }) := by
  refine ⟨?_, ?_, ?_⟩
  · simp [decideProposal]
  · simp [decideProposal]
  · intro hev hname
    simp [decideProposal, hev, hname]

/-- C8 witness: a concrete 'applied' proposal is moved to
'pending_review' by an edit and to 'rejected' by a reject. -/
theorem C8_no_terminal_guard_witness :
    decideProposal ⟨some "John", 1/2, "applied", "", [1]⟩ ⟨"edit", none, none, none⟩
        = Except.ok ⟨some "John", 1/2, "pending_review", "", [1]⟩
    ∧ decideProposal ⟨some "John", 1/2, "applied", "", [1]⟩ ⟨"reject", none, none, none⟩
        = Except.ok ⟨some "John", 1/2, "rejected", "", [1]⟩ :=
  ⟨(C8_no_terminal_guard ⟨some "John", 1/2, "applied", "", [1]⟩ (Or.inl rfl)).1,
   (C8_no_terminal_guard ⟨some "John", 1/2, "applied", "", [1]⟩ (Or.inl rfl)).2.1⟩

/-- C8 counterexample: the claim's terminality fails: a 'reject'
decision on an 'applied' proposal changes its status to 'rejected'. -/
theorem C8_terminal_status_counterexample :
    (⟨some "John", 1/2, "applied", "", [1]⟩ : ParentProposalRec).status = "applied"
    ∧ decideProposal ⟨some "John", 1/2, "applied", "", [1]⟩ ⟨"reject", none, none, none⟩
        = Except.ok ⟨some "John", 1/2, "rejected", "", [1]⟩
    ∧ "rejected" ≠ "applied" :=
  ⟨rfl, rfl, by decide⟩

theorem pyStrip_all_whitespace (v : String) (h : v.data.all Char.isWhitespace) :
    pyStrip v = "" := by
  unfold pyStrip
  have hdrop : v.data.dropWhile Char.isWhitespace = [] := by
    rw [List.dropWhile_eq_nil_iff]
    intro x hx
    exact List.all_eq_true.1 h x hx
  rw [hdrop]
  rfl

/-- C9: an 'edit' decision clamps any supplied confidence into [0,1]
before storing it, stores a whitespace-only candidate name as null, and
always resets the proposal status to 'pending_review'. -/
theorem C9_edit_semantics (p : ParentProposalRec) (body : ProposalDecisionRequest)
    (hact : body.action = "edit") :
    ∃ q, decideProposal p body = Except.ok q
      ∧ q.status = "pending_review"
      ∧ (∀ c, body.confidence = some c →
          q.confidence = max 0 (min 1 c) ∧ 0 ≤ q.confidence ∧ q.confidence ≤ 1)
      ∧ (∀ v, body.candidate_name = some v → v.data.all Char.isWhitespace →
          q.candidate_name = none) := by
  obtain ⟨act, bcn, bconf, bnotes⟩ := body
  simp only at hact
  subst hact
  simp only [decideProposal]
  rw [if_pos trivial]
  refine ⟨_, rfl, ?_, ?_, ?_⟩
  · cases bcn <;> cases bconf <;> cases bnotes <;> rfl
  · intro c hc
    cases bcn <;> cases bnotes <;>
      · rw [hc]
        refine ⟨rfl, le_max_left 0 _, max_le (by norm_num) (min_le_left 1 c)⟩
  · intro v hv hws
    rw [hv]
    have hstrip := pyStrip_all_whitespace v hws
    cases bconf <;> cases bnotes <;> simp [hstrip]

/-- C9 witness: editing an approved proposal with confidence 5 and a
whitespace-only name stores confidence 1, a null name, and status
'pending_review'. -/
theorem C9_edit_semantics_witness :
    ∃ q, decideProposal ⟨some "Old", 1/2, "approved", "", [3]⟩
          ⟨"edit", some "   ", some 5, none⟩ = Except.ok q
      ∧ q.status = "pending_review" ∧ q.confidence = 1 ∧ q.candidate_name = none := by
  obtain ⟨q, hq, hst, hconf, hname⟩ := C9_edit_semantics ⟨some "Old", 1/2, "approved", "", [3]⟩
    ⟨"edit", some "   ", some 5, none⟩ rfl
  refine ⟨q, hq, hst, ?_, hname "   " rfl (by decide)⟩
  rw [(hconf 5 rfl).1]
  norm_num

end DeepGen
